import Mathlib

/-!
# Verification of the mojique resource-lifetime and concurrency layer

Shallow embedding of the Rust sources `src/handle.rs`, `src/pool.rs` and
`src/config.rs`.  The native libmagic engine is modelled as an oracle: each
embedded operation takes, as explicit parameters, the responses the engine
would give to the native calls the Rust code makes (`magic_open`,
`magic_load`, `magic_buffer`, `magic_file`, `magic_descriptor`,
`magic_errno`, `magic_error`), together with the outcomes of the OS-level
pipe, read and write operations used by the streaming path.  C strings are
modelled as lists of byte values (`List Nat`), a null pointer as `none`.
-/

set_option autoImplicit false
set_option linter.unusedVariables false

namespace Mojique

instance {ε α : Type} [DecidableEq ε] [DecidableEq α] : DecidableEq (Except ε α) := fun x y =>
  match x, y with
  | .ok a, .ok b =>
      if h : a = b then isTrue (by rw [h]) else isFalse (fun hh => h (Except.ok.inj hh))
  | .error a, .error b =>
      if h : a = b then isTrue (by rw [h]) else isFalse (fun hh => h (Except.error.inj hh))
  | .ok _, .error _ => isFalse (fun hh => Except.noConfusion hh)
  | .error _, .ok _ => isFalse (fun hh => Except.noConfusion hh)

/-- An OS-level I/O error, classified by its kind: the streaming copy loop in
`Handle::read` distinguishes `ErrorKind::BrokenPipe` from every other kind. -/
inductive IOErr where
  | brokenPipe
  | other (code : Nat)
  deriving DecidableEq

/-- Observable events of a run: native handle lifecycle (`magic_open` /
`magic_close`) and the pool's idle-set lock protocol. -/
inductive Event where
  | opened (h : Nat)
  | closed (h : Nat)
  | lockAcquired
  | lockReleased
  | popped
  deriving DecidableEq

/-- `pool.rs`: `enum Source { Default, Buffers(Buffers), Files(CString) }`.
Buffers are the owned byte buffers; `files` holds the colon-joined path
bytes of the `CString`. -/
inductive Source where
  | default
  | buffers (bufs : List (List Nat))
  | files (bytes : List Nat)
  deriving DecidableEq

/-- `error.rs`: `enum Error`.  `Magic`'s message and `DescriptionNotUtf8`'s
payload are byte lists; the `std::io::Error` payloads are `IOErr`. -/
inductive Error where
  | CookieNommed
  | Create (e : IOErr)
  | DescriptionNotUtf8 (bytes : List Nat)
  | EmbeddedColons
  | EmbeddedNuls
  | Magic (errno : Int) (message : List Nat)
  | Nested (errno : Int)
  | PipeCreate (e : IOErr)
  | PipeCopy (e : IOErr)
  | PipeJoin
  | PoolPoisoned
  deriving DecidableEq

/-- A native cookie is identified by its handle value (the `magic_t`). -/
abbrev Cookie := Nat

/-- `handle.rs`: `impl ResultType for c_int { fn is_error(&self) -> bool
{ *self == -1 } }`. -/
def intIsError (r : Int) : Bool := r = -1

/-- `handle.rs`: `impl ResultType for *const c_char { fn is_error(&self) ->
bool { self.is_null() } }`.  A C string pointer is `Option (List Nat)`,
with `none` for the null pointer. -/
def ptrIsError (r : Option (List Nat)) : Bool := r.isNone

/-- `handle.rs`: `Cookie::raw`.  `result` is the value the native call `f`
returned, `errno` the engine's `magic_errno` response and `errMsg` its
`magic_error` response (`none` = null pointer).  `isErr` is the
`ResultType::is_error` test of the result type in play. -/
def Cookie.raw {R : Type} (isErr : R → Bool) (result : R) (errno : Int)
    (errMsg : Option (List Nat)) : Except Error R :=
  if isErr result then
    match errMsg with
    | none => .error (.Nested errno)
    | some m => .error (.Magic errno m)
  else
    .ok result

/-- `handle.rs`: `description_to_str`.  `decodeUtf8` models
`CStr::to_str` (UTF-8 validation of the C string's bytes); on decode
failure the raw bytes are preserved in the error. -/
def description_to_str (desc : List Nat)
    (decodeUtf8 : List Nat → Option String) : Except Error String :=
  match decodeUtf8 desc with
  | some s => .ok s
  | none => .error (.DescriptionNotUtf8 desc)

/-- Dereference of a (non-null) C string pointer, as `CStr::from_ptr` does
on the success path; the `none` branch is unreachable there, since
`Cookie.raw` has already filtered out the null pointer. -/
def derefCStr : Option (List Nat) → List Nat
  | some b => b
  | none => []

/-- `handle.rs`: `struct Handle { cookie: Option<Cookie>, reservoir:
Option<Arc<Mutex<Reservoir>>> }`.  `affiliated` records whether the
reservoir reference is present; the idle-set contents themselves are
threaded explicitly through the operations that touch them. -/
structure Handle where
  cookie : Option Cookie
  affiliated : Bool
  deriving DecidableEq

/-- The engine's responses to one string-returning native query call
(`magic_buffer` / `magic_file` / `magic_descriptor`) plus the follow-up
`magic_errno` / `magic_error` responses consulted on failure. -/
structure PtrCall where
  result : Option (List Nat)
  errno : Int
  errMsg : Option (List Nat)
  deriving DecidableEq

/-- `handle.rs`: `Handle::raw`.  The second component records whether the
native call `f` was actually invoked: with no cookie the function fails
with `CookieNommed` before touching the engine. -/
def Handle.raw {R : Type} (h : Handle) (isErr : R → Bool) (result : R)
    (errno : Int) (errMsg : Option (List Nat)) : Except Error R × Bool :=
  match h.cookie with
  | some _ => (Cookie.raw isErr result errno errMsg, true)
  | none => (.error .CookieNommed, false)

/-- Outcome of one query surface: the returned `Result`, the handle state
afterwards, and whether a native engine call was attempted. -/
structure QueryOut where
  result : Except Error String
  handle : Handle
  nativeCalled : Bool
  deriving DecidableEq

/-- `handle.rs`: `Handle::buffer` — `description_to_str(self.raw(|cookie|
magic_buffer(cookie, buf.as_ptr(), buf.len()))?)`. -/
def Handle.buffer (h : Handle) (buf : List Nat) (call : PtrCall)
    (decodeUtf8 : List Nat → Option String) : QueryOut :=
  match h.raw ptrIsError call.result call.errno call.errMsg with
  | (.ok desc, called) => ⟨description_to_str (derefCStr desc) decodeUtf8, h, called⟩
  | (.error e, called) => ⟨.error e, h, called⟩

/-- `handle.rs`: `Handle::file` — `CString::new(path)` first (failing with
`EmbeddedNuls` on an interior NUL byte), then `magic_file` through
`Handle::raw`. -/
def Handle.file (h : Handle) (path : List Nat) (call : PtrCall)
    (decodeUtf8 : List Nat → Option String) : QueryOut :=
  if 0 ∈ path then
    ⟨.error .EmbeddedNuls, h, false⟩
  else
    match h.raw ptrIsError call.result call.errno call.errMsg with
    | (.ok desc, called) => ⟨description_to_str (derefCStr desc) decodeUtf8, h, called⟩
    | (.error e, called) => ⟨.error e, h, called⟩

/-- `handle.rs`: `Handle::raw_fd` — `magic_descriptor` through
`Handle::raw`, then `description_to_str`. -/
def Handle.raw_fd (h : Handle) (fd : Int) (call : PtrCall)
    (decodeUtf8 : List Nat → Option String) : QueryOut :=
  match h.raw ptrIsError call.result call.errno call.errMsg with
  | (.ok desc, called) => ⟨description_to_str (derefCStr desc) decodeUtf8, h, called⟩
  | (.error e, called) => ⟨.error e, h, called⟩

/-- How the streaming copy loop in `Handle::read` terminated: end of input
(`read` returned `Ok(0)` or the source was exhausted), a broken-pipe write
(libmagic dropped its end — treated as success), or a fatal read/write
failure that becomes `Error::PipeCopy`. -/
inductive CopyRes where
  | eof
  | broken
  | failed (e : IOErr)
  deriving DecidableEq

/-- `handle.rs`, the copy loop of `Handle::read`: each entry of `reads` is
one outcome of `read.read(&mut buf)` (`Ok r` or an I/O error; an exhausted
list reads as end-of-input), each entry of `writes` one outcome of
`writer.write_all(&buf[0..r])` for a non-empty chunk (an exhausted list
writes cleanly).  `Ok(0)` breaks the loop; a broken-pipe write breaks the
loop; any other failure aborts it. -/
def copyLoop : List (Except IOErr Nat) → List (Except IOErr Unit) → CopyRes
  | [], _ => .eof
  | .error e :: _, _ => .failed e
  | .ok r :: rs, ws =>
    if r = 0 then
      .eof
    else
      match ws with
      | [] => copyLoop rs []
      | .ok _ :: ws2 => copyLoop rs ws2
      | .error e :: _ => if e = .brokenPipe then .broken else .failed e

/-- The environment of one `Handle::read` call: the outcome of
`std::io::pipe()`, the behaviors of the byte source and the pipe writes,
the engine's responses to the worker's single `magic_descriptor` query,
and whether `JoinHandle::join` succeeds (it fails only if the worker
panicked). -/
structure ReadEnv where
  pipe : Except IOErr Unit
  reads : List (Except IOErr Nat)
  writes : List (Except IOErr Unit)
  qcall : PtrCall
  joinOk : Bool
  deriving DecidableEq

/-- `handle.rs`, the closure spawned by `Handle::read`: one
`Cookie::raw(magic_descriptor)` call, then `description_to_str` on
success; the worker returns this outcome (and the cookie) to the caller. -/
def workerRun (call : PtrCall) (decodeUtf8 : List Nat → Option String) :
    Except Error String :=
  match Cookie.raw ptrIsError call.result call.errno call.errMsg with
  | .ok desc => description_to_str (derefCStr desc) decodeUtf8
  | .error e => .error e

/-- Outcome of one `Handle::read` call: the returned `Result`, the handle
state afterwards, whether the worker thread was spawned (which is the only
way a native call can be attempted), and whether `join` was reached. -/
structure ReadOut where
  result : Except Error String
  handle : Handle
  spawned : Bool
  joined : Bool
  deriving DecidableEq

/-- `handle.rs`: `Handle::read`.  Order follows the source: create the
pipe, `take` the cookie (failing with `CookieNommed` if already spent),
spawn the worker, run the copy loop (a `PipeCopy` failure returns without
joining, leaving the cookie with the worker), then join; a join failure is
`PipeJoin` and also leaves the handle spent; on a clean join the cookie is
put back and the worker's outcome returned. -/
def Handle.read (h : Handle) (env : ReadEnv)
    (decodeUtf8 : List Nat → Option String) : ReadOut :=
  match env.pipe with
  | .error e => ⟨.error (.PipeCreate e), h, false, false⟩
  | .ok _ =>
    match h.cookie with
    | none => ⟨.error .CookieNommed, h, false, false⟩
    | some c =>
      match copyLoop env.reads env.writes with
      | .failed e => ⟨.error (.PipeCopy e), ⟨none, h.affiliated⟩, true, false⟩
      | _ =>
        if env.joinOk then
          ⟨workerRun env.qcall decodeUtf8, ⟨some c, h.affiliated⟩, true, true⟩
        else
          ⟨.error .PipeJoin, ⟨none, h.affiliated⟩, true, true⟩

/-- `handle.rs`: `impl Drop for Handle`, together with the `Cookie` drop it
triggers.  Takes the affiliated pool's idle list (the `Reservoir`'s
`unused` vector, front to back — `Vec::push` appends); returns the updated
idle list and the close events emitted.  A pool-affiliated handle that
still owns its cookie pushes it back; an unaffiliated one drops the
cookie, whose `Drop` calls `magic_close`; a spent handle does neither. -/
def Handle.dropRun (h : Handle) (idle : List Cookie) :
    List Cookie × List Event :=
  match h.cookie, h.affiliated with
  | some c, true => (idle ++ [c], [])
  | some c, false => (idle, [.closed c])
  | none, _ => (idle, [])

/-- The engine's responses to one `magic_open` + load sequence: the handle
`magic_open` returns (`none` = null), the OS error available via
`last_os_error` at that point, the `c_int` the load call returns, and the
`magic_errno` / `magic_error` responses consulted if the load fails. -/
structure EngineOpen where
  openRes : Option Nat
  osErr : IOErr
  loadRes : Int
  errno : Int
  errMsg : Option (List Nat)
  deriving DecidableEq

/-- `pool.rs`: `Source::create_handle`.  `magic_open` first
(`Cookie::try_from` maps null to `Error::Create(last_os_error())`); then
the variant-specific load call through `Cookie::raw`; the `?` on a load
failure drops the partially-built cookie, emitting its close, before the
error propagates.  Returns the result and the native-handle event trace. -/
def Source.create_handle (src : Source) (flags : Int) (affiliated : Bool)
    (eng : EngineOpen) : Except Error Handle × List Event :=
  match eng.openRes with
  | none => (.error (.Create eng.osErr), [])
  | some c =>
    let loadOut : Except Error Int :=
      match src with
      | .buffers _ => Cookie.raw intIsError eng.loadRes eng.errno eng.errMsg
      | .files _ => Cookie.raw intIsError eng.loadRes eng.errno eng.errMsg
      | .default => Cookie.raw intIsError eng.loadRes eng.errno eng.errMsg
    match loadOut with
    | .error e => (.error e, [.opened c, .closed c])
    | .ok _ => (.ok ⟨some c, affiliated⟩, [.opened c])

/-- One-shot lifecycle: `Source::create_handle` without a pool, followed —
on success — by dropping the handle (which closes the cookie, there being
no reservoir).  The full native-handle event trace of that path. -/
def createThenRelease (src : Source) (flags : Int) (eng : EngineOpen) :
    List Event :=
  match src.create_handle flags false eng with
  | (.ok h, evs) => evs ++ (h.dropRun []).2
  | (.error _, evs) => evs

/-- `pool.rs`: `struct Pool` / `struct Inner` — the stored recipe (flags
and source) plus the reservoir's `unused` vector of idle cookies. -/
structure Pool where
  flags : Int
  source : Source
  unused : List Cookie
  deriving DecidableEq

/-- `pool.rs`: `Pool::handle`.  `lock()?` fails with `PoolPoisoned` on a
poisoned lock; otherwise `unused.pop()` (from the end of the vector): on
`Some`, wrap the popped cookie in an affiliated handle; on `None`, drop
the guard first and only then call `Source::create_handle`.  Returns the
result, the updated idle list and the event trace (lock protocol plus any
native-handle events). -/
def Pool.handle (p : Pool) (poisoned : Bool) (eng : EngineOpen) :
    Except Error Handle × List Cookie × List Event :=
  if poisoned then
    (.error .PoolPoisoned, p.unused, [])
  else
    match p.unused.getLast? with
    | some c =>
      (.ok ⟨some c, true⟩, p.unused.dropLast,
        [.lockAcquired, .popped, .lockReleased])
    | none =>
      let out := p.source.create_handle p.flags true eng
      (out.1, p.unused, [.lockAcquired, .lockReleased] ++ out.2)

/-- Dropping a `Reservoir` drops its `Vec<Cookie>`, closing every idle
cookie. -/
def Reservoir.dropAll (idle : List Cookie) : List Event :=
  idle.map .closed

/-- `config.rs`: the `try_fold` inside `FileConfig::into_source` — the
separator byte `b':'` (58) is pushed between entries, and a path
containing a colon aborts the fold with `EmbeddedColons`. -/
def joinPaths (acc : List Nat) : List (List Nat) → Except Error (List Nat)
  | [] => .ok acc
  | p :: ps =>
    let acc2 := if acc.isEmpty then acc else acc ++ [58]
    if 58 ∈ p then .error .EmbeddedColons
    else joinPaths (acc2 ++ p) ps

/-- `config.rs`: `FileConfig::into_source`.  Paths are byte lists (the
`PathBuf`s' encoded bytes).  After the fold, `CString::new` rejects any
interior NUL byte with `EmbeddedNuls`; otherwise the joined bytes become
`Source::Files`. -/
def FileConfig.into_source (paths : List (List Nat)) : Except Error Source :=
  match joinPaths [] paths with
  | .error e => .error e
  | .ok bytes => if 0 ∈ bytes then .error .EmbeddedNuls else .ok (.files bytes)

/-- `config.rs`: `Config::build_handle` for a `FileConfig` —
`self.into_source()?.create_handle(flags, None)`; an `into_source` failure
propagates before any native call, so its event trace is empty. -/
def build_handle (flags : Int) (paths : List (List Nat)) (eng : EngineOpen) :
    Except Error Handle × List Event :=
  match FileConfig.into_source paths with
  | .error e => (.error e, [])
  | .ok src => src.create_handle flags false eng

/-- Count of an event in a trace. -/
def countEv (tr : List Event) (e : Event) : Nat :=
  tr.countP (fun x => x = e)

/-- Full native-handle lifecycle through a pool: one checkout, release of
the obtained lease back into the idle-set, then pool teardown (dropping
the reservoir closes every idle cookie). -/
def pooledLifecycle (p : Pool) (eng : EngineOpen) : List Event :=
  match p.handle false eng with
  | (.ok h, idle, tr) => tr ++ (h.dropRun idle).2 ++ Reservoir.dropAll (h.dropRun idle).1
  | (.error _, idle, tr) => tr ++ Reservoir.dropAll idle

/-- What every query surface does on a spent lease (one whose cookie has
been permanently relinquished): each fails without attempting any native
engine call and leaves the lease spent; the error is `CookieNommed`,
except that `Handle::file` rejects a NUL-containing path with
`EmbeddedNuls` before looking at the cookie, and `Handle::read` reports a
failure to create its pipe as `PipeCreate` before looking at the cookie. -/
def spentLeaseBehavior (h : Handle) : Prop :=
  (∀ buf call d, Handle.buffer h buf call d = ⟨.error .CookieNommed, h, false⟩) ∧
  (∀ path call d, 0 ∉ path → Handle.file h path call d = ⟨.error .CookieNommed, h, false⟩) ∧
  (∀ path call d, 0 ∈ path → Handle.file h path call d = ⟨.error .EmbeddedNuls, h, false⟩) ∧
  (∀ fd call d, Handle.raw_fd h fd call d = ⟨.error .CookieNommed, h, false⟩) ∧
  (∀ env d, env.pipe = .ok () → Handle.read h env d = ⟨.error .CookieNommed, h, false, false⟩) ∧
  (∀ env d e, env.pipe = .error e → Handle.read h env d = ⟨.error (.PipeCreate e), h, false, false⟩) ∧
  (∀ (R : Type) (isErr : R → Bool) (result : R) (errno : Int) (errMsg : Option (List Nat)),
    h.raw isErr result errno errMsg = (.error .CookieNommed, false))

theorem spent_lease_spec (h : Handle) (hs : h.cookie = none) :
    spentLeaseBehavior h := by
  obtain ⟨co, aff⟩ := h
  simp only [Handle.cookie] at hs
  subst hs
  refine ⟨?_, ?_, ?_, ?_, ?_, ?_, ?_⟩
  · intro buf call d; rfl
  · intro path call d hnp
    simp [Handle.file, Handle.raw, hnp]
  · intro path call d hp
    simp [Handle.file, hp]
  · intro fd call d; rfl
  · intro env d hp
    simp [Handle.read, hp]
  · intro env d e hp
    simp [Handle.read, hp]
  · intro R isErr result errno errMsg; rfl

theorem cookie_raw_error_shape {R : Type} (isErr : R → Bool) (result : R)
    (errno : Int) (errMsg : Option (List Nat)) (er : Error)
    (he : Cookie.raw isErr result errno errMsg = .error er) :
    (∃ m, er = .Magic errno m) ∨ er = .Nested errno := by
  unfold Cookie.raw at he
  split at he
  · cases errMsg with
    | none => exact Or.inr (Except.error.inj he).symm
    | some m => exact Or.inl ⟨m, (Except.error.inj he).symm⟩
  · exact absurd he (by simp)

theorem create_handle_ok (src : Source) (flags : Int) (aff : Bool)
    (eng : EngineOpen) (h : Handle)
    (hw : (src.create_handle flags aff eng).1 = .ok h) :
    ∃ c, eng.openRes = some c ∧ h = ⟨some c, aff⟩ := by
  unfold Source.create_handle at hw
  cases ho : eng.openRes with
  | none => rw [ho] at hw; exact absurd hw (by simp)
  | some c =>
    rw [ho] at hw
    refine ⟨c, rfl, ?_⟩
    cases src <;> dsimp only at hw <;> split at hw <;>
      first
        | exact (Except.ok.inj hw).symm
        | exact absurd hw (by simp)

theorem joinPaths_colon (paths : List (List Nat)) :
    ∀ acc : List Nat, (∃ p ∈ paths, (58 : Nat) ∈ p) →
      joinPaths acc paths = .error .EmbeddedColons := by
  induction paths with
  | nil => rintro acc ⟨p, hp, _⟩; cases hp
  | cons q ps ih =>
    rintro acc ⟨p, hp, h58⟩
    by_cases hq : (58 : Nat) ∈ q
    · simp [joinPaths, hq]
    · rcases List.mem_cons.mp hp with rfl | hp2
      · exact absurd h58 hq
      · simp only [joinPaths, hq, if_false]
        exact ih _ ⟨p, hp2, h58⟩

theorem joinPaths_noColon (paths : List (List Nat)) :
    ∀ acc : List Nat, (∀ p ∈ paths, (58 : Nat) ∉ p) →
      ∃ b, joinPaths acc paths = .ok b ∧
        ((0 : Nat) ∈ b ↔ (0 : Nat) ∈ acc ∨ ∃ p ∈ paths, (0 : Nat) ∈ p) := by
  induction paths with
  | nil => intro acc h; exact ⟨acc, rfl, by simp⟩
  | cons q ps ih =>
    intro acc h
    have hq : (58 : Nat) ∉ q := h q (List.mem_cons_self q ps)
    have hps : ∀ p ∈ ps, (58 : Nat) ∉ p := fun p hp => h p (List.mem_cons_of_mem q hp)
    obtain ⟨b, hb, hiff⟩ := ih ((if acc.isEmpty then acc else acc ++ [58]) ++ q) hps
    refine ⟨b, ?_, ?_⟩
    · simp only [joinPaths]
      rw [if_neg hq]
      exact hb
    · have hsep : ((0 : Nat) ∈ (if acc.isEmpty then acc else acc ++ [58])) ↔ (0 : Nat) ∈ acc := by
        by_cases ha : acc.isEmpty <;> simp [ha]
      rw [hiff, List.mem_append, hsep]
      constructor
      · rintro ((h0 | h0) | ⟨p, hp, h0⟩)
        · exact Or.inl h0
        · exact Or.inr ⟨q, List.mem_cons_self q ps, h0⟩
        · exact Or.inr ⟨p, List.mem_cons_of_mem q hp, h0⟩
      · rintro (h0 | ⟨p, hp, h0⟩)
        · exact Or.inl (Or.inl h0)
        · rcases List.mem_cons.mp hp with rfl | hp2
          · exact Or.inl (Or.inr h0)
          · exact Or.inr ⟨p, hp2, h0⟩

theorem buffer_native_called (h : Handle) (c : Cookie) (hc : h.cookie = some c)
    (buf : List Nat) (call : PtrCall) (d : List Nat → Option String) :
    (Handle.buffer h buf call d).nativeCalled = true := by
  unfold Handle.buffer Handle.raw
  rw [hc]
  cases hq : Cookie.raw ptrIsError call.result call.errno call.errMsg <;> rfl

theorem create_handle_trace (src : Source) (flags : Int) (aff : Bool) (eng : EngineOpen) :
    src.create_handle flags aff eng = (.error (.Create eng.osErr), []) ∨
    (∃ c e, eng.openRes = some c ∧
      src.create_handle flags aff eng = (.error e, [.opened c, .closed c])) ∨
    (∃ c, eng.openRes = some c ∧
      src.create_handle flags aff eng = (.ok ⟨some c, aff⟩, [.opened c])) := by
  cases ho : eng.openRes with
  | none =>
    refine Or.inl ?_
    cases src <;> simp [Source.create_handle, ho]
  | some c =>
    cases hcr : Cookie.raw intIsError eng.loadRes eng.errno eng.errMsg with
    | error e =>
      refine Or.inr (Or.inl ⟨c, e, rfl, ?_⟩)
      cases src <;> simp [Source.create_handle, ho, hcr]
    | ok v =>
      refine Or.inr (Or.inr ⟨c, rfl, ?_⟩)
      cases src <;> simp [Source.create_handle, ho, hcr]

theorem buffer_handle_eq (h : Handle) (buf : List Nat) (call : PtrCall)
    (d : List Nat → Option String) : (Handle.buffer h buf call d).handle = h := by
  unfold Handle.buffer Handle.raw
  cases hc : h.cookie with
  | none => rfl
  | some c =>
    cases hq : Cookie.raw ptrIsError call.result call.errno call.errMsg <;> rfl

/-- C7: a native call through a `Resource` classifies an integer result of
`-1` or a null pointer as failure; on failure, a non-null engine message
pointer gives the structured `Magic` error carrying both the code and the
message, a null one gives the code-only `Nested` error; a successful
string result whose bytes do not decode as UTF-8 yields
`DescriptionNotUtf8` carrying the raw bytes. -/
theorem c7_native_call_classification :
    (∀ (errno : Int) (msg : List Nat),
        Cookie.raw intIsError (-1) errno (some msg) = .error (.Magic errno msg)) ∧
    (∀ errno : Int, Cookie.raw intIsError (-1) errno none = .error (.Nested errno)) ∧
    (∀ (r errno : Int) (errMsg : Option (List Nat)), r ≠ -1 →
        Cookie.raw intIsError r errno errMsg = .ok r) ∧
    (∀ (errno : Int) (msg : List Nat),
        Cookie.raw ptrIsError none errno (some msg) = .error (.Magic errno msg)) ∧
    (∀ errno : Int, Cookie.raw ptrIsError none errno none = .error (.Nested errno)) ∧
    (∀ (b : List Nat) (errno : Int) (errMsg : Option (List Nat)),
        Cookie.raw ptrIsError (some b) errno errMsg = .ok (some b)) ∧
    (∀ (bytes : List Nat) (d : List Nat → Option String), d bytes = none →
        description_to_str bytes d = .error (.DescriptionNotUtf8 bytes)) := by
  refine ⟨fun errno msg => rfl, fun errno => rfl, ?_, fun errno msg => rfl,
    fun errno => rfl, fun b errno errMsg => rfl, ?_⟩
  · intro r errno errMsg hr
    simp [Cookie.raw, intIsError, hr]
  · intro bytes d hd
    simp [description_to_str, hd]

theorem c7_witness :
    ((3 : Int) ≠ -1) ∧ Cookie.raw intIsError 3 0 none = .ok 3 ∧
    ((fun _ => (none : Option String)) [200] = none) ∧
    description_to_str [200] (fun _ => none) = .error (.DescriptionNotUtf8 [200]) :=
  ⟨by decide, c7_native_call_classification.2.2.1 3 0 none (by decide), rfl,
    c7_native_call_classification.2.2.2.2.2.2 [200] (fun _ => none) rfl⟩

/-- C8 counterexample: with one configured path containing a NUL byte and a
later one containing a colon byte, `into_source` fails with
`EmbeddedColons` — the NUL-containing path does not make it fail with
`EmbeddedNuls` as the claim, read as stated, requires. -/
theorem c8_counterexample :
    FileConfig.into_source [[0], [58]] = .error .EmbeddedColons ∧
    Except.error Error.EmbeddedColons ≠ (.error .EmbeddedNuls : Except Error Source) :=
  ⟨by decide, by decide⟩

/-- C8 (amended): `FileConfig`'s conversion to a `Source` colon-joins its
configured paths in order, so paths `"/a"`, `"/b"` serialize to the source
bytes `"/a:/b"`; any configured path containing a colon byte makes the
conversion fail with `EmbeddedColons`; a configured path containing a NUL
byte makes it fail with `EmbeddedNuls` provided no path contains a colon
(the colon check runs first); in both cases the failure happens at
construction time, before any native engine call is made. -/
theorem c8_file_config_serialization :
    (FileConfig.into_source [[47, 97], [47, 98]] = .ok (.files [47, 97, 58, 47, 98])) ∧
    (∀ paths : List (List Nat), (∃ p ∈ paths, (58 : Nat) ∈ p) →
        FileConfig.into_source paths = .error .EmbeddedColons) ∧
    (∀ paths : List (List Nat), (∀ p ∈ paths, (58 : Nat) ∉ p) →
        (∃ p ∈ paths, (0 : Nat) ∈ p) →
        FileConfig.into_source paths = .error .EmbeddedNuls) ∧
    (∀ (flags : Int) (paths : List (List Nat)) (eng : EngineOpen) (e : Error),
        FileConfig.into_source paths = .error e →
        build_handle flags paths eng = (.error e, [])) := by
  refine ⟨by decide, ?_, ?_, ?_⟩
  · intro paths hex
    unfold FileConfig.into_source
    rw [joinPaths_colon paths [] hex]
  · intro paths hnc hex
    obtain ⟨b, hb, hiff⟩ := joinPaths_noColon paths [] hnc
    have h0 : (0 : Nat) ∈ b := hiff.mpr (Or.inr hex)
    unfold FileConfig.into_source
    rw [hb]
    simp [h0]
  · intro flags paths eng e he
    unfold build_handle
    rw [he]

theorem c8_witness :
    (∃ p ∈ [[47, 58, 97]], (58 : Nat) ∈ p) ∧
    FileConfig.into_source [[47, 58, 97]] = .error .EmbeddedColons ∧
    (∀ p ∈ [[47, 0]], (58 : Nat) ∉ p) ∧ (∃ p ∈ [[47, 0]], (0 : Nat) ∈ p) ∧
    FileConfig.into_source [[47, 0]] = .error .EmbeddedNuls ∧
    build_handle 0 [[47, 0]] ⟨some 3, .other 0, 0, 0, none⟩ = (.error .EmbeddedNuls, []) :=
  ⟨by decide,
    c8_file_config_serialization.2.1 [[47, 58, 97]] (by decide),
    by decide, by decide,
    c8_file_config_serialization.2.2.1 [[47, 0]] (by decide) (by decide),
    c8_file_config_serialization.2.2.2 0 [[47, 0]] ⟨some 3, .other 0, 0, 0, none⟩
      .EmbeddedNuls
      (c8_file_config_serialization.2.2.1 [[47, 0]] (by decide) (by decide))⟩

/-- C1: for every flags value, every `Source` and every engine behavior,
resource creation (`magic_open` followed by the load call) either returns
an owned resource or fails with an error; on any load failure the
partially-built native handle is closed before the error propagates; and
on every execution path — creation failure, load failure, or success
followed by final release, whether one-shot or through a pool — each
successfully-opened native handle has `magic_close` invoked on it exactly
once, so no path leaks a native handle. -/
theorem c1_no_native_handle_leak (flags : Int) (src : Source) (eng : EngineOpen) :
    (∀ e, (src.create_handle flags false eng).1 = .error e →
      ∀ n, countEv (src.create_handle flags false eng).2 (.opened n)
         = countEv (src.create_handle flags false eng).2 (.closed n)) ∧
    (∀ n, countEv (createThenRelease src flags eng) (.opened n)
        = countEv (createThenRelease src flags eng) (.closed n)) ∧
    (∀ n, countEv (createThenRelease src flags eng) (.closed n) ≤ 1) ∧
    (∀ h, (src.create_handle flags false eng).1 = .ok h → ∃ c, h.cookie = some c) ∧
    (∀ n, countEv (pooledLifecycle ⟨flags, src, []⟩ eng) (.opened n)
        = countEv (pooledLifecycle ⟨flags, src, []⟩ eng) (.closed n)) := by
  have key := create_handle_trace src flags false eng
  have keyT := create_handle_trace src flags true eng
  have hph : Pool.handle ⟨flags, src, []⟩ false eng
      = ((src.create_handle flags true eng).1, [],
          [.lockAcquired, .lockReleased] ++ (src.create_handle flags true eng).2) := rfl
  refine ⟨?_, ?_, ?_, ?_, ?_⟩
  · intro e he n
    rcases key with h | ⟨c, e2, ho, h⟩ | ⟨c, ho, h⟩
    · rw [h]; rfl
    · rw [h]
      simp [countEv, List.countP_cons, List.countP_nil]
    · rw [h] at he
      simp at he
  · intro n
    rcases key with h | ⟨c, e2, ho, h⟩ | ⟨c, ho, h⟩ <;>
      simp [createThenRelease, h, Handle.dropRun, countEv,
        List.countP_cons, List.countP_nil]
  · intro n
    rcases key with h | ⟨c, e2, ho, h⟩ | ⟨c, ho, h⟩ <;>
      simp [createThenRelease, h, Handle.dropRun, countEv,
        List.countP_cons, List.countP_nil] <;>
      by_cases hn : c = n <;> simp [hn]
  · intro h hk
    obtain ⟨c, _, rfl⟩ := create_handle_ok src flags false eng h hk
    exact ⟨c, rfl⟩
  · intro n
    rcases keyT with h | ⟨c, e2, ho, h⟩ | ⟨c, ho, h⟩ <;>
      simp [pooledLifecycle, hph, h, Handle.dropRun, Reservoir.dropAll, countEv,
        List.countP_cons, List.countP_nil]

theorem c1_witness :
    ((Source.create_handle .default 0 false ⟨some 3, .other 0, -1, 2, some [104]⟩).1
        = .error (.Magic 2 [104])) ∧
    countEv (Source.create_handle .default 0 false
        ⟨some 3, .other 0, -1, 2, some [104]⟩).2 (.opened 3)
      = countEv (Source.create_handle .default 0 false
          ⟨some 3, .other 0, -1, 2, some [104]⟩).2 (.closed 3) :=
  ⟨by decide,
    (c1_no_native_handle_leak 0 .default ⟨some 3, .other 0, -1, 2, some [104]⟩).1
      (.Magic 2 [104]) (by decide) 3⟩

/-- C4: checkout with a non-empty idle-set pops exactly one idle cookie
(the last of the `unused` vector) and returns a pool-affiliated lease
wrapping it, leaving the idle-set one smaller and creating no new resource
(no `opened` event); with an empty idle-set, the lock is acquired and
released first, and only then is a brand-new resource created from the
pool's stored recipe — the event trace places every native-handle event
after the lock release — again wrapped pool-affiliated. -/
theorem c4_pool_checkout (p : Pool) (eng : EngineOpen) :
    (∀ c, p.unused.getLast? = some c →
      p.handle false eng = (.ok ⟨some c, true⟩, p.unused.dropLast,
          [.lockAcquired, .popped, .lockReleased]) ∧
      (p.handle false eng).2.1.length + 1 = p.unused.length ∧
      (∀ n, Event.opened n ∉ (p.handle false eng).2.2)) ∧
    (p.unused = [] →
      (p.handle false eng).2.2
          = [.lockAcquired, .lockReleased] ++ (p.source.create_handle p.flags true eng).2 ∧
      (p.handle false eng).1 = (p.source.create_handle p.flags true eng).1 ∧
      (p.handle false eng).2.1 = [] ∧
      (∀ h, (p.handle false eng).1 = .ok h → h.affiliated = true)) := by
  constructor
  · intro c hg
    have hh : p.handle false eng = (.ok ⟨some c, true⟩, p.unused.dropLast,
        [.lockAcquired, .popped, .lockReleased]) := by
      simp [Pool.handle, hg]
    refine ⟨hh, ?_, ?_⟩
    · rw [hh]
      have hne : p.unused ≠ [] := by
        intro h0
        rw [h0] at hg
        simp at hg
      have hpos : 0 < p.unused.length := List.length_pos.mpr hne
      simp only [List.length_dropLast]
      omega
    · intro n
      rw [hh]
      simp
  · intro hu
    have hh : p.handle false eng = ((p.source.create_handle p.flags true eng).1, [],
        [.lockAcquired, .lockReleased] ++ (p.source.create_handle p.flags true eng).2) := by
      simp [Pool.handle, hu]
    refine ⟨by rw [hh], by rw [hh], by rw [hh], ?_⟩
    intro h hk
    rw [hh] at hk
    obtain ⟨c2, _, rfl⟩ := create_handle_ok p.source p.flags true eng h hk
    rfl

theorem c4_witness :
    (([4, 5] : List Cookie).getLast? = some 5) ∧
    (Pool.handle ⟨0, .default, [4, 5]⟩ false ⟨some 9, .other 0, 0, 0, none⟩
        = (.ok ⟨some 5, true⟩, ([4, 5] : List Cookie).dropLast,
            [.lockAcquired, .popped, .lockReleased]) ∧
      (Pool.handle ⟨0, .default, [4, 5]⟩ false ⟨some 9, .other 0, 0, 0, none⟩).2.1.length + 1
        = ([4, 5] : List Cookie).length ∧
      (∀ n, Event.opened n
        ∉ (Pool.handle ⟨0, .default, [4, 5]⟩ false ⟨some 9, .other 0, 0, 0, none⟩).2.2)) :=
  ⟨by decide,
    (c4_pool_checkout ⟨0, .default, [4, 5]⟩ ⟨some 9, .other 0, 0, 0, none⟩).1 5 (by decide)⟩

/-- C5 counterexample: a pool-affiliated lease that was spent by a failed
streaming query (join failure) releases nothing on drop — the idle-set
stays at size 1 instead of growing to 2 — so releasing a pool-affiliated
lease does not always increase the idle-set size by exactly one. -/
theorem c5_counterexample :
    (Handle.read ⟨some 7, true⟩ ⟨.ok (), [], [], ⟨some [97], 0, none⟩, false⟩
        (fun _ => some "x")).handle.affiliated = true ∧
    (Handle.dropRun ((Handle.read ⟨some 7, true⟩
        ⟨.ok (), [], [], ⟨some [97], 0, none⟩, false⟩
        (fun _ => some "x")).handle) [5]).1.length = 1 ∧
    (1 : Nat) ≠ 1 + 1 :=
  ⟨by decide, by decide, by decide⟩

/-- C5 (amended): releasing (dropping) a pool-affiliated lease that still
owns its resource hands it back, increasing the pool's idle-set size by
exactly one — even if the preceding query failed, since a query failure
alone does not take the cookie; a pool-affiliated lease that has been
spent returns nothing; a lease without pool affiliation instead closes
its resource directly on release. -/
theorem c5_release (h : Handle) (c : Cookie) (idle : List Cookie) :
    (h.cookie = some c → h.affiliated = true →
      Handle.dropRun h idle = (idle ++ [c], []) ∧
      (Handle.dropRun h idle).1.length = idle.length + 1) ∧
    (h.cookie = some c → h.affiliated = false →
      Handle.dropRun h idle = (idle, [.closed c])) ∧
    (h.cookie = none → Handle.dropRun h idle = (idle, [])) ∧
    (h.cookie = some c → h.affiliated = true →
      ∀ (buf : List Nat) (call : PtrCall) (d : List Nat → Option String),
        Handle.dropRun (Handle.buffer h buf call d).handle idle = (idle ++ [c], [])) := by
  obtain ⟨co, aff⟩ := h
  simp only [Handle.cookie, Handle.affiliated]
  refine ⟨?_, ?_, ?_, ?_⟩
  · rintro rfl rfl
    exact ⟨rfl, by simp [Handle.dropRun]⟩
  · rintro rfl rfl
    rfl
  · rintro rfl
    rfl
  · rintro rfl rfl buf call d
    rw [buffer_handle_eq]
    rfl

theorem c5_witness :
    ((⟨some 3, true⟩ : Handle).cookie = some 3) ∧
    ((⟨some 3, true⟩ : Handle).affiliated = true) ∧
    Handle.dropRun ⟨some 3, true⟩ [1] = ([1] ++ [3], []) ∧
    (Handle.dropRun ⟨some 3, true⟩ [1]).1.length = [1].length + 1 :=
  ⟨rfl, rfl, ((c5_release ⟨some 3, true⟩ 3 [1]).1 rfl rfl).1,
    ((c5_release ⟨some 3, true⟩ 3 [1]).1 rfl rfl).2⟩

/-- C10: `Handle::file` called with a query path containing an embedded NUL
byte returns `EmbeddedNuls` before any native call and regardless of the
lease's state — in particular a spent lease given such a path fails with
`EmbeddedNuls`, not with `CookieNommed`, because the path check precedes
the spent-lease check. -/
theorem c10_file_nul_precedes_spent_check
    (h : Handle) (path : List Nat) (call : PtrCall)
    (d : List Nat → Option String) (hp : (0 : Nat) ∈ path) :
    Handle.file h path call d = ⟨.error .EmbeddedNuls, h, false⟩ ∧
    (Handle.file h path call d).result ≠ .error .CookieNommed := by
  constructor
  · simp [Handle.file, hp]
  · simp [Handle.file, hp]

/-- C2: if during the streaming copy loop of `Handle::read` a pipe write
fails with the broken-pipe kind (and the worker terminates normally, which
its panic-free closure always does), the loop exits cleanly: the call
returns the worker's query outcome — success or engine error, never a
`PipeCopy` error — and the handle regains its cookie, so it is not spent
and subsequent queries attempt the native call. -/
theorem c2_broken_pipe_is_success (h : Handle) (c : Cookie) (env : ReadEnv)
    (d : List Nat → Option String)
    (hc : h.cookie = some c) (hp : env.pipe = .ok ())
    (hb : copyLoop env.reads env.writes = .broken) (hj : env.joinOk = true) :
    Handle.read h env d = ⟨workerRun env.qcall d, ⟨some c, h.affiliated⟩, true, true⟩ ∧
    (∀ e, workerRun env.qcall d ≠ .error (.PipeCopy e)) ∧
    (∀ buf call d2,
      (Handle.buffer (Handle.read h env d).handle buf call d2).nativeCalled = true) := by
  have hread : Handle.read h env d
      = ⟨workerRun env.qcall d, ⟨some c, h.affiliated⟩, true, true⟩ := by
    simp [Handle.read, hp, hc, hb, hj]
  refine ⟨hread, ?_, ?_⟩
  · intro e hw
    unfold workerRun at hw
    cases hq : Cookie.raw ptrIsError env.qcall.result env.qcall.errno env.qcall.errMsg with
    | ok desc =>
      rw [hq] at hw
      unfold description_to_str at hw
      cases hd : d (derefCStr desc) <;> simp [hd] at hw
    | error er =>
      rw [hq] at hw
      rcases cookie_raw_error_shape ptrIsError env.qcall.result env.qcall.errno
        env.qcall.errMsg er hq with ⟨m, rfl⟩ | rfl <;> simp_all
  · intro buf call d2
    rw [hread]
    exact buffer_native_called ⟨some c, h.affiliated⟩ c rfl buf call d2

theorem c2_witness :
    ((⟨some 7, true⟩ : Handle).cookie = some 7) ∧
    copyLoop [.ok 5] [.error .brokenPipe] = .broken ∧
    (Handle.read ⟨some 7, true⟩ ⟨.ok (), [.ok 5], [.error .brokenPipe], ⟨some [97], 0, none⟩, true⟩
          (fun _ => some "x")
        = ⟨workerRun ⟨some [97], 0, none⟩ (fun _ => some "x"), ⟨some 7, true⟩, true, true⟩ ∧
      (∀ e, workerRun ⟨some [97], 0, none⟩ (fun _ => some "x") ≠ .error (.PipeCopy e)) ∧
      (∀ buf call d2,
        (Handle.buffer (Handle.read ⟨some 7, true⟩
            ⟨.ok (), [.ok 5], [.error .brokenPipe], ⟨some [97], 0, none⟩, true⟩
            (fun _ => some "x")).handle buf call d2).nativeCalled = true)) :=
  ⟨rfl, by decide,
    c2_broken_pipe_is_success ⟨some 7, true⟩ 7
      ⟨.ok (), [.ok 5], [.error .brokenPipe], ⟨some [97], 0, none⟩, true⟩
      (fun _ => some "x") rfl rfl (by decide) rfl⟩

/-- C3 counterexample: after a join failure has left the lease spent, a
subsequent `Handle::read` whose pipe creation fails returns `PipeCreate`,
not `CookieNommed` — so not every subsequent query operation on the spent
handle fails with the resource-already-relinquished error. -/
theorem c3_counterexample :
    (Handle.read ⟨some 4, false⟩ ⟨.ok (), [], [], ⟨some [97], 0, none⟩, false⟩
        (fun _ => some "x")).result = .error .PipeJoin ∧
    (Handle.read ((Handle.read ⟨some 4, false⟩ ⟨.ok (), [], [], ⟨some [97], 0, none⟩, false⟩
          (fun _ => some "x")).handle)
        ⟨.error (.other 24), [], [], ⟨some [97], 0, none⟩, true⟩ (fun _ => some "x")).result
      = .error (.PipeCreate (.other 24)) ∧
    Except.error (Error.PipeCreate (.other 24)) ≠ (.error .CookieNommed : Except Error String) :=
  ⟨by decide, by decide, by decide⟩

/-- C3 (amended): if joining the streaming worker thread in `Handle::read`
fails, the call returns the distinct `PipeJoin` error and the lease is left
permanently spent: every subsequent query operation fails without
attempting any native call — with `CookieNommed`, except that
classify-path given a path with an embedded NUL fails with `EmbeddedNuls`
and classify-stream fails with `PipeCreate` when its pipe cannot be
created — and every subsequent operation leaves the lease spent, so none
can revive it. -/
theorem c3_join_failure_spends_lease (h : Handle) (c : Cookie) (env : ReadEnv)
    (d : List Nat → Option String)
    (hc : h.cookie = some c) (hp : env.pipe = .ok ())
    (hclean : copyLoop env.reads env.writes = .eof ∨ copyLoop env.reads env.writes = .broken)
    (hj : env.joinOk = false) :
    Handle.read h env d = ⟨.error .PipeJoin, ⟨none, h.affiliated⟩, true, true⟩ ∧
    spentLeaseBehavior ⟨none, h.affiliated⟩ ∧
    (∀ env2 d2, ((⟨none, h.affiliated⟩ : Handle).read env2 d2).handle.cookie = none) ∧
    (∀ buf call d2, (Handle.buffer ⟨none, h.affiliated⟩ buf call d2).handle.cookie = none) ∧
    (∀ path call d2, (Handle.file ⟨none, h.affiliated⟩ path call d2).handle.cookie = none) ∧
    (∀ fd call d2, (Handle.raw_fd ⟨none, h.affiliated⟩ fd call d2).handle.cookie = none) := by
  refine ⟨?_, spent_lease_spec _ rfl, ?_, ?_, ?_, ?_⟩
  · rcases hclean with hcl | hcl <;> simp [Handle.read, hp, hc, hcl, hj]
  · intro env2 d2
    cases hp2 : env2.pipe <;> simp [Handle.read, hp2]
  · intro buf call d2; rfl
  · intro path call d2
    by_cases hnp : (0 : Nat) ∈ path <;> simp [Handle.file, Handle.raw, hnp]
  · intro fd call d2; rfl

theorem c3_witness :
    ((⟨some 4, true⟩ : Handle).cookie = some 4) ∧
    (copyLoop ([] : List (Except IOErr Nat)) [] = .eof ∨
      copyLoop ([] : List (Except IOErr Nat)) [] = .broken) ∧
    (Handle.read ⟨some 4, true⟩ ⟨.ok (), [], [], ⟨some [97], 0, none⟩, false⟩ (fun _ => none)
        = ⟨.error .PipeJoin, ⟨none, true⟩, true, true⟩ ∧
      spentLeaseBehavior ⟨none, true⟩ ∧
      (∀ env2 d2, ((⟨none, true⟩ : Handle).read env2 d2).handle.cookie = none) ∧
      (∀ buf call d2, (Handle.buffer ⟨none, true⟩ buf call d2).handle.cookie = none) ∧
      (∀ path call d2, (Handle.file ⟨none, true⟩ path call d2).handle.cookie = none) ∧
      (∀ fd call d2, (Handle.raw_fd ⟨none, true⟩ fd call d2).handle.cookie = none)) :=
  ⟨rfl, Or.inl rfl,
    c3_join_failure_spends_lease ⟨some 4, true⟩ 4
      ⟨.ok (), [], [], ⟨some [97], 0, none⟩, false⟩ (fun _ => none)
      rfl rfl (Or.inl rfl) rfl⟩

/-- C6 counterexample: classify-path invoked on a spent lease with a path
containing an embedded NUL byte fails with `EmbeddedNuls`, not with
`CookieNommed`, so not every query surface on a spent lease fails with
the resource-already-relinquished error. -/
theorem c6_counterexample :
    (Handle.file ⟨none, true⟩ [0] ⟨some [97], 0, none⟩ (fun _ => some "x")).result
      = .error .EmbeddedNuls ∧
    (Handle.file ⟨none, true⟩ [0] ⟨some [97], 0, none⟩ (fun _ => some "x")).result
      ≠ .error .CookieNommed :=
  ⟨by decide, by decide⟩

/-- C6 (amended): every one of the four query surfaces invoked on a spent
lease fails immediately without attempting any native engine call, and the
error is `CookieNommed` — except that classify-path first validates the
query path, so a path with an embedded NUL byte fails with `EmbeddedNuls`,
and classify-stream first creates its pipe, so a pipe-creation failure
yields `PipeCreate`. -/
theorem c6_spent_lease_queries (h : Handle) (hs : h.cookie = none) :
    spentLeaseBehavior h :=
  spent_lease_spec h hs

theorem c6_witness :
    ((⟨none, false⟩ : Handle).cookie = none) ∧ spentLeaseBehavior ⟨none, false⟩ :=
  ⟨rfl, c6_spent_lease_queries ⟨none, false⟩ rfl⟩

/-- C9 counterexample: after a copy failure has left the lease spent,
classify-path called with a NUL-containing path fails with `EmbeddedNuls`,
not with `CookieNommed` — so not every subsequent query on the spent
handle fails with the resource-already-relinquished error. -/
theorem c9_counterexample :
    (Handle.read ⟨some 6, true⟩ ⟨.ok (), [.error (.other 3)], [], ⟨some [97], 0, none⟩, true⟩
        (fun _ => some "x")).result = .error (.PipeCopy (.other 3)) ∧
    (Handle.file ((Handle.read ⟨some 6, true⟩
          ⟨.ok (), [.error (.other 3)], [], ⟨some [97], 0, none⟩, true⟩
          (fun _ => some "x")).handle) [0] ⟨some [97], 0, none⟩ (fun _ => some "x")).result
      = .error .EmbeddedNuls ∧
    Except.error Error.EmbeddedNuls ≠ (.error .CookieNommed : Except Error String) :=
  ⟨by decide, by decide, by decide⟩

/-- C9 (amended): if during the streaming copy loop of `Handle::read` the
read from the caller's byte source fails, or a pipe write fails with any
kind other than broken pipe, the call returns a `PipeCopy` error without
joining the worker thread, and the handle is left spent: its cookie is
never restored, releasing it returns nothing to any pool and closes
nothing (the cookie is with the worker), and every subsequent query fails
without attempting a native call — with `CookieNommed`, except NUL-path
(`EmbeddedNuls`) and pipe-creation failure (`PipeCreate`). -/
theorem c9_copy_failure_spends_lease (h : Handle) (c : Cookie) (env : ReadEnv)
    (d : List Nat → Option String) (e : IOErr)
    (hc : h.cookie = some c) (hp : env.pipe = .ok ())
    (hf : copyLoop env.reads env.writes = .failed e) :
    Handle.read h env d = ⟨.error (.PipeCopy e), ⟨none, h.affiliated⟩, true, false⟩ ∧
    (∀ idle, Handle.dropRun ⟨none, h.affiliated⟩ idle = (idle, [])) ∧
    spentLeaseBehavior ⟨none, h.affiliated⟩ := by
  refine ⟨?_, ?_, spent_lease_spec _ rfl⟩
  · simp [Handle.read, hp, hc, hf]
  · intro idle; rfl

theorem c9_witness :
    ((⟨some 6, true⟩ : Handle).cookie = some 6) ∧
    copyLoop [.error (.other 3)] [] = .failed (.other 3) ∧
    (Handle.read ⟨some 6, true⟩ ⟨.ok (), [.error (.other 3)], [], ⟨some [97], 0, none⟩, true⟩
          (fun _ => none)
        = ⟨.error (.PipeCopy (.other 3)), ⟨none, true⟩, true, false⟩ ∧
      (∀ idle, Handle.dropRun ⟨none, true⟩ idle = (idle, [])) ∧
      spentLeaseBehavior ⟨none, true⟩) :=
  ⟨rfl, by decide,
    c9_copy_failure_spends_lease ⟨some 6, true⟩ 6
      ⟨.ok (), [.error (.other 3)], [], ⟨some [97], 0, none⟩, true⟩
      (fun _ => none) (.other 3) rfl rfl (by decide)⟩

theorem c10_witness :
    ((0 : Nat) ∈ [0]) ∧
    (Handle.file ⟨none, true⟩ [0] ⟨some [97], 0, none⟩ (fun _ => none)
        = ⟨.error .EmbeddedNuls, ⟨none, true⟩, false⟩ ∧
      (Handle.file ⟨none, true⟩ [0] ⟨some [97], 0, none⟩ (fun _ => none)).result
        ≠ .error .CookieNommed) :=
  ⟨by decide,
    c10_file_nul_precedes_spent_check ⟨none, true⟩ [0] ⟨some [97], 0, none⟩
      (fun _ => none) (by decide)⟩

end Mojique
